import Mathlib

/-
Shallow embedding of the feedmixer repository's fetch/cache/merge engine and
its HTTP front end (src/feedmixer_app.py).

The engine module (feedmixer.py, class FeedMixer) is not part of the source
tree given under src/; only its unit tests (src/test/unit/test_feedmixer_unit.py)
and its caller (src/feedmixer_app.py) are.  The engine is therefore modelled
from the specification (spec.md §3–§4), with the unit tests taken as the
authority wherever they pin down observable behaviour.  Two such places where
the tests override the spec's prose are noted on the definitions below:

* truncation by `num_keep` is applied per source feed, before mixing
  (test_multi_good: three feeds with num_keep=2 yield 6 entries;
  test_set_num_keep: two feeds with num_keep=2 yield 4 entries), not once to
  the combined sorted collection;
* a fresh cache hit whose payload is a raw transport response is parsed and
  the parsed form is re-stored in the cache (test_fresh_response asserts
  `cache.replace_data` is called once), rather than being reparsed "for this
  call only" with the cache left unchanged.

All definitions are executable; machine-level concerns (real time, actual
HTTP) are represented by explicit data: the cache keeps an explicit
"expired" flag with each record, and the transport layer is a function
supplied in an `Env`.
-/

namespace FM

/-- Modelled from the spec: a normalized entry (spec.md §3, "Normalized
entry").  `published`/`updated` instants are represented as natural numbers
(larger = more recent); optional instants are `Option Nat`.  `summary` and
`content` are the source feed's short and long-form fields; `description` is
the output field filled in by the normalizer's content selection (§4.3), as
observed in the unit tests (`me.get('description')`). -/
structure Entry where
  title : String := ""
  link : String := ""
  id : String := ""
  published : Option Nat := none
  updated : Option Nat := none
  authorName : Option String := none
  authorUri : Option String := none
  summary : String := ""
  content : Option String := none
  description : Option String := none
deriving DecidableEq

/-- Modelled from the spec: parsed feed content (spec.md §4.2/§4.3): a
feed-level author (name, optional URI) and the feed's entries in document
order. -/
structure ParsedFeed where
  feedAuthorName : Option String := none
  feedAuthorUri : Option String := none
  entries : List Entry := []
deriving DecidableEq

/-- Modelled from the spec: revalidation metadata stored with a cached record
(spec.md §3, "Cached record"). -/
structure Validators where
  etag : Option String := none
  lastModified : Option String := none
deriving DecidableEq

/-- Modelled from the spec: a cached payload is either raw transport content
or an already-parsed feed (spec.md §3 and §9, "Payload shape ambiguity in the
cache"). -/
inductive Payload where
  | raw (text : String)
  | parsed (feed : ParsedFeed)
deriving DecidableEq

/-- Modelled from the spec: the record held by the Cache Store for one source
identifier (spec.md §3): payload, validators and a TTL (the expiry instant is
abstracted into the TTL plus the store's expired flag). -/
structure CacheRecord where
  payload : Payload
  validators : Validators := {}
  ttl : Nat := 0
deriving DecidableEq

/-- Modelled from the spec: the Cache Store (spec.md §4.1) as an association
list from source identifier to a record together with its `isExpired` flag. -/
abbrev CacheStore := List (String × CacheRecord × Bool)

/-- Modelled from the spec: `get(key) -> (record, isExpired) | absent`
(spec.md §4.1). -/
def CacheStore.get (c : CacheStore) (key : String) : Option (CacheRecord × Bool) :=
  List.lookup key c

/-- Modelled from the spec: `create(key, payload, validators, ttl)` inserts a
new record; a newly stored record is fresh (spec.md §4.1). -/
def CacheStore.create (c : CacheStore) (key : String) (payload : Payload)
    (vals : Validators) (ttl : Nat) : CacheStore :=
  (key, { payload := payload, validators := vals, ttl := ttl }, false) :: c

/-- Modelled from the spec: `replace(key, payload, validators, ttl)`
overwrites an existing record's payload/validators, resetting its expiry
(spec.md §4.1). -/
def CacheStore.replace (c : CacheStore) (key : String) (payload : Payload)
    (vals : Validators) (ttl : Nat) : CacheStore :=
  (key, { payload := payload, validators := vals, ttl := ttl }, false) ::
    c.filter (fun p => p.1 != key)

/-- Modelled from the tests: `replace_data(key, data)` (shelfcache operation
used by the engine, asserted by test_fresh_response / test_stale_parsed)
replaces only the stored payload of an existing record, leaving validators,
TTL and freshness unchanged; absent keys are left untouched. -/
def CacheStore.replace_data (c : CacheStore) (key : String) (payload : Payload) :
    CacheStore :=
  match List.lookup key c with
  | some (rec, exp) =>
      (key, { rec with payload := payload }, exp) :: c.filter (fun p => p.1 != key)
  | none => c

/-- Modelled from the spec: outcome of one transport request (spec.md §6,
"Transport interface"): new content with response validators and an optional
cache-control max-age; a "not modified" answer; or a transport-level failure
carrying a message and, when available, an HTTP status. -/
inductive CondResponse where
  | ok (body : String) (vals : Validators) (maxAge : Option Nat)
  | notModified (vals : Validators) (maxAge : Option Nat)
  | fail (msg : String) (httpStatus : Option Nat)

/-- Modelled from the spec: the two source-scoped failure kinds (spec.md §7):
`transport` (could not retrieve; optionally carries the HTTP status that the
front end appends to the reported error string) and `content` (retrieved but
unparseable). -/
inductive FetchError where
  | transport (msg : String) (httpStatus : Option Nat)
  | content (msg : String)
deriving DecidableEq

/-- Modelled from the spec: the engine's capability-typed external
collaborators (spec.md §5–§6): the transport (taking the optional stored
validators for a conditional request), the feed parser, and the injected
default TTL (spec.md §9). -/
structure Env where
  transport : String → Option Validators → CondResponse
  parse : String → Except String ParsedFeed
  defaultTTL : Nat

/-- Modelled from the spec: derive parsed content from a cached payload —
already-parsed payloads are used directly, raw payloads go through the
parser (spec.md §4.2 steps 3–4). -/
def parsePayload (env : Env) (p : Payload) : Except String ParsedFeed :=
  match p with
  | Payload.parsed feed => Except.ok feed
  | Payload.raw body => env.parse body

/-- Modelled from the spec: the Source Fetcher (spec.md §4.2), constrained by
the unit tests.  Returns the typed result together with the cache store after
the call.  Cases: absent key → unconditional request, parse, `create`; fresh
hit on parsed payload → returned directly (test_fresh_parsed); fresh hit on
raw payload → parsed and re-stored via `replace_data` (test_fresh_response);
expired → conditional request with the stored validators; a "not modified"
answer returns the content derived from the existing payload and refreshes
the record via `replace`; new content is parsed and `replace`d.  A "not
modified" answer with no usable cached body behaves like a parse failure of
an empty body.  Failures are returned as values, never thrown. -/
def fetch (env : Env) (c : CacheStore) (url : String) :
    Except FetchError ParsedFeed × CacheStore :=
  match CacheStore.get c url with
  | none =>
      match env.transport url none with
      | CondResponse.fail msg st => (Except.error (FetchError.transport msg st), c)
      | CondResponse.notModified _ _ =>
          (Except.error (FetchError.content "empty body"), c)
      | CondResponse.ok body vals maxAge =>
          match env.parse body with
          | Except.error msg => (Except.error (FetchError.content msg), c)
          | Except.ok feed =>
              (Except.ok feed,
               CacheStore.create c url (Payload.parsed feed) vals
                 (maxAge.getD env.defaultTTL))
  | some (rec, false) =>
      match rec.payload with
      | Payload.parsed feed => (Except.ok feed, c)
      | Payload.raw body =>
          match env.parse body with
          | Except.error msg => (Except.error (FetchError.content msg), c)
          | Except.ok feed =>
              (Except.ok feed, CacheStore.replace_data c url (Payload.parsed feed))
  | some (rec, true) =>
      match env.transport url (some rec.validators) with
      | CondResponse.fail msg st => (Except.error (FetchError.transport msg st), c)
      | CondResponse.notModified vals maxAge =>
          match parsePayload env rec.payload with
          | Except.error msg => (Except.error (FetchError.content msg), c)
          | Except.ok feed =>
              (Except.ok feed,
               CacheStore.replace c url (Payload.parsed feed) vals
                 (maxAge.getD env.defaultTTL))
      | CondResponse.ok body vals maxAge =>
          match env.parse body with
          | Except.error msg => (Except.error (FetchError.content msg), c)
          | Except.ok feed =>
              (Except.ok feed,
               CacheStore.replace c url (Payload.parsed feed) vals
                 (maxAge.getD env.defaultTTL))

/-- Modelled from the spec: content selection (spec.md §4.3): with
`prefer_summary` the short summary is used; otherwise the long-form content
when the source provides one, falling back to the summary. -/
def selectDescription (prefer_summary : Bool) (e : Entry) : String :=
  if prefer_summary then e.summary
  else match e.content with
       | some long => long
       | none => e.summary

/-- Modelled from the spec: author backfill (spec.md §4.3): an entry lacking
its own author acquires the feed-level author name, and the feed-level URI
when present; entries that already carry an author are left untouched. -/
def backfillAuthor (feed : ParsedFeed) (e : Entry) : Entry :=
  match e.authorName with
  | some _ => e
  | none =>
      match feed.feedAuthorName with
      | none => e
      | some n =>
          { e with authorName := some n,
                   authorUri := match feed.feedAuthorUri with
                                | some u => some u
                                | none => e.authorUri }

/-- Modelled from the spec: the Entry Normalizer (spec.md §4.3): author
backfill followed by content selection into `description`. -/
def normalize (prefer_summary : Bool) (feed : ParsedFeed) : List Entry :=
  feed.entries.map (fun e =>
    let e1 := backfillAuthor feed e
    { e1 with description := some (selectDescription prefer_summary e1) })

/-- Modelled from the tests: per-source truncation by `num_keep`
(test_multi_good, test_set_num_keep): a positive `num_keep` keeps the first
`num_keep` entries of one source's bucket; zero or negative keeps all. -/
def truncate (num_keep : Int) (l : List Entry) : List Entry :=
  if 0 < num_keep then l.take num_keep.toNat else l

/-- Modelled from the spec: record a failure in the Error Record map keyed by
source identifier, at most one error per identifier (spec.md §3, "Error
record"). -/
def setErr (errs : List (String × FetchError)) (url : String) (e : FetchError) :
    List (String × FetchError) :=
  if (List.lookup url errs).isSome then errs else (url, e) :: errs

/-- Modelled from the spec: the Mixer's fan-out over the configured sources
(spec.md §4.4 steps 1–4), threading the cache store: each source in order is
fetched; successes are normalized and truncated to the per-source budget and
appended; failures are recorded in the error map and contribute no entries. -/
def gather (env : Env) (prefer_summary : Bool) (num_keep : Int) :
    List String → CacheStore →
    List Entry × List (String × FetchError) × CacheStore
  | [], c => ([], [], c)
  | url :: rest, c =>
      match fetch env c url with
      | (Except.ok feed, c2) =>
          let r := gather env prefer_summary num_keep rest c2
          (truncate num_keep (normalize prefer_summary feed) ++ r.1, r.2.1, r.2.2)
      | (Except.error e, c2) =>
          let r := gather env prefer_summary num_keep rest c2
          (r.1, setErr r.2.1 url e, r.2.2)

/-- Modelled from the spec: the produced entries of an aggregation with no
truncation at all — the flattened, normalized buckets of every successful
source (spec.md §4.4 step 4; "totalProduced" in §8). -/
def producedEntries (env : Env) (prefer_summary : Bool) :
    List String → CacheStore → List Entry
  | [], _ => []
  | url :: rest, c =>
      match fetch env c url with
      | (Except.ok feed, c2) =>
          normalize prefer_summary feed ++ producedEntries env prefer_summary rest c2
      | (Except.error _, c2) => producedEntries env prefer_summary rest c2

/-- Modelled from the spec: the descending sort key of an entry — an entry
lacking a publication instant sorts as if its instant were the earliest
possible value (spec.md §4.4 step 5), here key 0, while an instant `t` gets
key `t + 1`. -/
def keyOf (e : Entry) : Nat :=
  match e.published with
  | some t => t + 1
  | none => 0

/-- Modelled from the spec: stable descending insertion — `x` passes over the
strictly-more-recent prefix and lands before every element whose key is less
than or equal to its own, so earlier input elements stay first on ties. -/
def insertDesc (x : Entry) : List Entry → List Entry
  | [] => [x]
  | y :: ys => if keyOf x < keyOf y then y :: insertDesc x ys else x :: y :: ys

/-- Modelled from the spec: stable sort of the combined collection by
publication instant, descending (spec.md §4.4 step 5). -/
def sortDesc : List Entry → List Entry
  | [] => []
  | x :: xs => insertDesc x (sortDesc xs)

/-- Modelled from the spec: one full recomputation of the mixed-entries view
(spec.md §4.4 steps 1–6): fan out, sort the concatenation, and return the
entries, the error map and the cache store after the run. -/
def computeMixed (env : Env) (c : CacheStore) (feeds : List String)
    (num_keep : Int) (prefer_summary : Bool) :
    List Entry × List (String × FetchError) × CacheStore :=
  let r := gather env prefer_summary num_keep feeds c
  (sortDesc r.1, r.2.1, r.2.2)

/-- Modelled from the spec: Mixer state (spec.md §3): configuration plus the
memoized mixed-entries view and the error map of the most recent
computation. -/
structure FeedMixer where
  feeds : List String
  num_keep : Int
  prefer_summary : Bool
  title : String := ""
  desc : String := ""
  link : String := ""
  memo : Option (List Entry) := none
  error_urls : List (String × FetchError) := []

/-- Modelled from the spec: a freshly constructed Mixer — no memoized result,
empty error map. -/
def mkMixer (feeds : List String) (num_keep : Int) (prefer_summary : Bool) :
    FeedMixer :=
  { feeds := feeds, num_keep := num_keep, prefer_summary := prefer_summary }

/-- Modelled from the spec: `mixedEntries()` (spec.md §4.4): in the `Fresh`
memoization state the cached view is returned directly; in the `Stale` state
the view is recomputed, memoized together with the error map, and returned.
Source failures are values in the error map — the operation is total and
never propagates a source failure. -/
def FeedMixer.mixed_entries (env : Env) (c : CacheStore) (m : FeedMixer) :
    List Entry × FeedMixer × CacheStore :=
  match m.memo with
  | some es => (es, m, c)
  | none =>
      let r := computeMixed env c m.feeds m.num_keep m.prefer_summary
      (r.1, { m with memo := some r.1, error_urls := r.2.1 }, r.2.2)

/-- Modelled from the spec: `errors()` returns the error map accumulated by
the most recent computation (spec.md §4.4). -/
def FeedMixer.errors (m : FeedMixer) : List (String × FetchError) :=
  m.error_urls

/-- Modelled from the spec: writing the source list invalidates the memoized
result and the error map (spec.md §3 invariant, §4.4 setters). -/
def FeedMixer.set_feeds (m : FeedMixer) (fs : List String) : FeedMixer :=
  { m with feeds := fs, memo := none, error_urls := [] }

/-- Modelled from the spec: writing the keep-count invalidates the memoized
result and the error map (spec.md §3 invariant, §4.4 setters). -/
def FeedMixer.set_num_keep (m : FeedMixer) (k : Int) : FeedMixer :=
  { m with num_keep := k, memo := none, error_urls := [] }

/-- From src/feedmixer_app.py lines 45–50: render one recorded failure as the
string placed in the error report — `str(e)`, with the error's HTTP status
appended in parentheses when the error carries one. -/
def errStr : FetchError → String
  | FetchError.transport msg (some st) => msg ++ " (" ++ toString st ++ ")"
  | FetchError.transport msg none => msg
  | FetchError.content msg => msg

/-- From src/feedmixer_app.py: the front end's external collaborators — the
engine's environment and cache, the serializer dispatched on the format name
(the `getattr(fm, ftype + "_feed")` call), `json.dumps` and
`urllib.parse.quote`. -/
structure AppEnv where
  env : Env
  cache : CacheStore
  serialize : String → List Entry → String
  jsonEncode : List (String × String) → String
  urlQuote : String → String

/-- From src/feedmixer_app.py: the falcon response surface written by
`on_get` — body, appended headers, content type, and numeric HTTP status. -/
structure Response where
  body : String
  headers : List (String × String)
  contentType : String
  status : Nat
deriving DecidableEq

/-- From src/feedmixer_app.py lines 31–55 (`MixedFeed.on_get`): build a
FeedMixer from the request's feed list and keep-count, serialize in the
route's format, and, exactly when the error map is non-empty, append the
`X-fm-errors` header holding the URL-encoded JSON rendering of the error
map; the response status is always 200. -/
def on_get (A : AppEnv) (ftype : String) (f : List String) (n : Int) : Response :=
  let m := mkMixer f n false
  let r := FeedMixer.mixed_entries A.env A.cache m
  let errs := (r.2.1).error_urls
  { body := A.serialize ftype r.1
    headers :=
      if errs.isEmpty then []
      else [("X-fm-errors",
             A.urlQuote (A.jsonEncode (errs.map (fun pr => (pr.1, errStr pr.2)))))]
    contentType := "application/" ++ ftype
    status := 200 }

/-- Modelled from the tests: the entry count one source occurrence adds under
per-source truncation — `min(num_keep, produced-by-that-source)` when its
fetch from the given cache state succeeds, zero when it fails.  Meaningful
for positive `num_keep`. -/
def sourceContribution (env : Env) (p : Bool) (k : Int) (c : CacheStore)
    (url : String) : Nat :=
  match (fetch env c url).1 with
  | Except.ok feed => min k.toNat (normalize p feed).length
  | Except.error _ => 0

/-- Modelled from the tests: the sum of the per-occurrence contributions over
the whole source list, threading the cache state exactly as the mixer
does. -/
def totalContribution (env : Env) (p : Bool) (k : Int) :
    List String → CacheStore → Nat
  | [], _ => 0
  | url :: rest, c =>
      sourceContribution env p k c url +
        totalContribution env p k rest (fetch env c url).2

/-- Concrete two-entry feed used to instantiate the theorems below. -/
def feed2 : ParsedFeed :=
  { entries := [{ published := some 10 }, { published := some 5 }] }

/-- Concrete environment used to instantiate the theorems below: the source
"terr" fails at the transport level with HTTP status 404; a body equal to
"perr" fails to parse; anything else parses to `feed2`; conditional requests
are answered "not modified" with refreshed validators and a max-age of 60. -/
def mixEnv : Env :=
  { transport := fun url v =>
      if url = "terr" then CondResponse.fail "fetch error" (some 404)
      else
        match v with
        | some _ => CondResponse.notModified { etag := some "e2" } (some 60)
        | none => CondResponse.ok url {} none
    parse := fun body =>
      if body = "perr" then Except.error "parse error" else Except.ok feed2
    defaultTTL := 300 }

/-- Concrete cache holding an expired record for "a" whose payload is already
parsed. -/
def staleCache : CacheStore :=
  [("a", { payload := Payload.parsed feed2, validators := { etag := some "e1" },
           ttl := 0 }, true)]

/-- Concrete cache holding a fresh record for "a" whose payload is raw
transport content. -/
def freshRawCache : CacheStore :=
  [("a", { payload := Payload.raw "x" }, false)]

/-! Helper lemmas about the stable descending sort. -/

theorem insertDesc_perm (x : Entry) (l : List Entry) :
    List.Perm (insertDesc x l) (x :: l) := by
  induction l with
  | nil => simp [insertDesc]
  | cons y ys ih =>
      by_cases h : keyOf x < keyOf y
      · rw [insertDesc, if_pos h]
        exact List.Perm.trans (List.Perm.cons y ih) (List.Perm.swap x y ys)
      · rw [insertDesc, if_neg h]

theorem sortDesc_perm (l : List Entry) : List.Perm (sortDesc l) l := by
  induction l with
  | nil => simp [sortDesc]
  | cons x xs ih =>
      exact List.Perm.trans (insertDesc_perm x (sortDesc xs)) (List.Perm.cons x ih)

theorem sortDesc_length (l : List Entry) : (sortDesc l).length = l.length :=
  (sortDesc_perm l).length_eq

theorem pairwise_insertDesc (x : Entry) (l : List Entry)
    (h : List.Pairwise (fun a b => keyOf b ≤ keyOf a) l) :
    List.Pairwise (fun a b => keyOf b ≤ keyOf a) (insertDesc x l) := by
  induction l with
  | nil => simp [insertDesc]
  | cons y ys ih =>
      rcases List.pairwise_cons.mp h with ⟨hy, hys⟩
      by_cases hk : keyOf x < keyOf y
      · simp only [insertDesc, if_pos hk]
        refine List.pairwise_cons.mpr ⟨?_, ih hys⟩
        intro z hz
        have hz2 : z = x ∨ z ∈ ys := by
          have := (insertDesc_perm x ys).mem_iff.mp hz
          simpa using this
        rcases hz2 with rfl | hz2
        · exact Nat.le_of_lt hk
        · exact hy z hz2
      · simp only [insertDesc, if_neg hk]
        refine List.pairwise_cons.mpr ⟨?_, h⟩
        intro z hz
        rcases List.mem_cons.mp hz with rfl | hz2
        · exact Nat.le_of_not_lt hk
        · exact Nat.le_trans (hy z hz2) (Nat.le_of_not_lt hk)

theorem pairwise_sortDesc (l : List Entry) :
    List.Pairwise (fun a b => keyOf b ≤ keyOf a) (sortDesc l) := by
  induction l with
  | nil => simp [sortDesc]
  | cons x xs ih => exact pairwise_insertDesc x (sortDesc xs) ih

theorem filter_insertDesc (x : Entry) (l : List Entry) (t : Nat) :
    (insertDesc x l).filter (fun e => keyOf e == t) =
      if keyOf x == t then x :: l.filter (fun e => keyOf e == t)
      else l.filter (fun e => keyOf e == t) := by
  induction l with
  | nil =>
      by_cases hx : keyOf x = t <;> simp [insertDesc, hx]
  | cons y ys ih =>
      by_cases hk : keyOf x < keyOf y
      · rw [insertDesc, if_pos hk]
        by_cases hx : keyOf x = t
        · have hy : ¬ (keyOf y = t) := by omega
          simp [List.filter_cons, hx, hy, ih]
        · by_cases hy : keyOf y = t <;> simp [List.filter_cons, hx, hy, ih]
      · rw [insertDesc, if_neg hk]
        by_cases hx : keyOf x = t <;> simp [List.filter_cons, hx]

theorem filter_sortDesc (l : List Entry) (t : Nat) :
    (sortDesc l).filter (fun e => keyOf e == t) =
      l.filter (fun e => keyOf e == t) := by
  induction l with
  | nil => rfl
  | cons x xs ih =>
      by_cases hx : keyOf x = t
      · calc (sortDesc (x :: xs)).filter (fun e => keyOf e == t)
            = (insertDesc x (sortDesc xs)).filter (fun e => keyOf e == t) := rfl
          _ = x :: (sortDesc xs).filter (fun e => keyOf e == t) := by
              rw [filter_insertDesc]; simp [hx]
          _ = x :: xs.filter (fun e => keyOf e == t) := by rw [ih]
          _ = (x :: xs).filter (fun e => keyOf e == t) := by
              simp [List.filter_cons, hx]
      · calc (sortDesc (x :: xs)).filter (fun e => keyOf e == t)
            = (insertDesc x (sortDesc xs)).filter (fun e => keyOf e == t) := rfl
          _ = (sortDesc xs).filter (fun e => keyOf e == t) := by
              rw [filter_insertDesc]; simp [hx]
          _ = xs.filter (fun e => keyOf e == t) := ih
          _ = (x :: xs).filter (fun e => keyOf e == t) := by
              simp [List.filter_cons, hx]

/-! Helper lemmas about the fetcher, the error map and the fan-out. -/

theorem fetch_error_cache (env : Env) (c : CacheStore) (url : String)
    (e : FetchError) (h : (fetch env c url).1 = Except.error e) :
    (fetch env c url).2 = c := by
  unfold fetch at h ⊢
  rcases hget : CacheStore.get c url with _ | ⟨rec, exp⟩
  · rcases ht : env.transport url none with ⟨body, vals, ma⟩ | ⟨vals, ma⟩ | ⟨msg, st⟩
    · rcases hp : env.parse body with msg | feed <;> simp_all
    · simp_all
    · simp_all
  · rcases exp with _ | _
    · rcases hpl : rec.payload with body | feed
      · rcases hp : env.parse body with msg | feed <;> simp_all
      · simp_all
    · rcases ht : env.transport url (some rec.validators) with
          ⟨body, vals, ma⟩ | ⟨vals, ma⟩ | ⟨msg, st⟩
      · rcases hp : env.parse body with msg | feed <;> simp_all
      · rcases hp : parsePayload env rec.payload with msg | feed <;> simp_all
      · simp_all

theorem lookup_setErr_self (errs : List (String × FetchError)) (url : String)
    (e : FetchError) (h : List.lookup url errs = none) :
    List.lookup url (setErr errs url e) = some e := by
  unfold setErr
  rw [h]
  simp [List.lookup]

theorem lookup_setErr_other (errs : List (String × FetchError)) (u url : String)
    (e : FetchError) (h : url ≠ u) :
    List.lookup url (setErr errs u e) = List.lookup url errs := by
  unfold setErr
  by_cases hs : (List.lookup u errs).isSome
  · simp [hs]
  · have hb : (url == u) = false := beq_eq_false_iff_ne.mpr h
    simp [hs, List.lookup, hb]

theorem gather_not_mem_errors (env : Env) (p : Bool) (k : Int) :
    ∀ (urls : List String) (c : CacheStore) (url : String), url ∉ urls →
      List.lookup url (gather env p k urls c).2.1 = none := by
  intro urls
  induction urls with
  | nil => intro c url _; simp [gather]
  | cons u rest ih =>
      intro c url h
      have h2 : ¬(url = u ∨ url ∈ rest) := by simpa [List.mem_cons] using h
      obtain ⟨hne, hrest⟩ := not_or.mp h2
      rcases hf : fetch env c u with ⟨res, c2⟩
      rcases res with e | feed
      · simp [gather, hf, lookup_setErr_other _ _ _ _ hne, ih c2 url hrest]
      · simp [gather, hf, ih c2 url hrest]

theorem truncate_length_pos (k : Int) (hk : 0 < k) (l : List Entry) :
    (truncate k l).length = min k.toNat l.length := by
  simp [truncate, hk, List.length_take]

theorem gather_length (env : Env) (p : Bool) (k : Int) (hk : 0 < k) :
    ∀ (urls : List String) (c : CacheStore),
      (gather env p k urls c).1.length = totalContribution env p k urls c := by
  intro urls
  induction urls with
  | nil => intro c; simp [gather, totalContribution]
  | cons u rest ih =>
      intro c
      rcases hf : fetch env c u with ⟨res, c2⟩
      rcases res with e | feed
      · simp [gather, hf, totalContribution, sourceContribution, ih c2]
      · simp [gather, hf, totalContribution, sourceContribution, ih c2,
              truncate_length_pos k hk]

theorem gather_eq_produced (env : Env) (p : Bool) (k : Int) (hk : k ≤ 0) :
    ∀ (urls : List String) (c : CacheStore),
      (gather env p k urls c).1 = producedEntries env p urls c := by
  intro urls
  induction urls with
  | nil => intro c; simp [gather, producedEntries]
  | cons u rest ih =>
      intro c
      rcases hf : fetch env c u with ⟨res, c2⟩
      rcases res with e | feed
      · simp [gather, producedEntries, hf, ih c2]
      · have hnk : ¬ (0 < k) := by omega
        simp [gather, producedEntries, hf, ih c2, truncate, hnk]

theorem gather_isolation (env : Env) (p : Bool) (k : Int) :
    ∀ (pre : List String) (c : CacheStore) (post : List String) (url : String)
      (e : FetchError), url ∉ pre → url ∉ post →
      (fetch env (gather env p k pre c).2.2 url).1 = Except.error e →
      (gather env p k (pre ++ url :: post) c).1
          = (gather env p k (pre ++ post) c).1
      ∧ List.lookup url (gather env p k (pre ++ url :: post) c).2.1 = some e := by
  intro pre
  induction pre with
  | nil =>
      intro c post url e _ hpost hf
      have hf2 : (fetch env c url).1 = Except.error e := by simpa [gather] using hf
      have hc : (fetch env c url).2 = c := fetch_error_cache env c url e hf2
      rcases hfe : fetch env c url with ⟨res, c2⟩
      have hres : res = Except.error e := by rw [hfe] at hf2; exact hf2
      have hc2 : c2 = c := by rw [hfe] at hc; exact hc
      subst hres hc2
      constructor
      · simp [gather, hfe]
      · simp only [List.nil_append, gather, hfe]
        exact lookup_setErr_self _ _ _ (gather_not_mem_errors env p k post _ url hpost)
  | cons q pre2 ih =>
      intro c post url e hpre hpost hf
      have h2 : ¬(url = q ∨ url ∈ pre2) := by simpa [List.mem_cons] using hpre
      obtain ⟨hne, hpre2⟩ := not_or.mp h2
      rcases hfq : fetch env c q with ⟨res, c2⟩
      rcases res with e2 | feed
      · have hf2 : (fetch env (gather env p k pre2 c2).2.2 url).1 = Except.error e := by
          simpa [gather, hfq] using hf
        obtain ⟨h1, hlk⟩ := ih c2 post url e hpre2 hpost hf2
        constructor
        · simp [List.cons_append, gather, hfq, h1]
        · simp only [List.cons_append, gather, hfq]
          rw [lookup_setErr_other _ _ _ _ hne]
          exact hlk
      · have hf2 : (fetch env (gather env p k pre2 c2).2.2 url).1 = Except.error e := by
          simpa [gather, hfq] using hf
        obtain ⟨h1, hlk⟩ := ih c2 post url e hpre2 hpost hf2
        constructor
        · simp [List.cons_append, gather, hfq, h1]
        · simpa [List.cons_append, gather, hfq] using hlk

/-! Claim theorems. -/

/-- Claim C1, as stated, fails on the code: with the concrete environment
`mixEnv`, the two sources "a" and "b" each produce two entries
(`totalProduced = 4`), and with keep-count 2 the claim predicts
`min 2 4 = 2` mixed entries, but `mixed_entries` returns 4 — the unit tests
(test_multi_good, test_set_num_keep) pin truncation as per-source, not as a
single truncation of the combined sorted collection. -/
theorem mixed_entries_not_globally_truncated :
    ¬ ((FeedMixer.mixed_entries mixEnv [] (mkMixer ["a", "b"] 2 false)).1.length
        = min 2 (producedEntries mixEnv false ["a", "b"] []).length) := by
  decide

/-- Claim C1 (amended): for every configured source list and every positive
keep-count k, `mixed_entries` returns exactly the sum, over the source
occurrences in order, of `min(k, entries produced by that occurrence)` for
successful fetches and 0 for failing ones — truncation is applied per source
before mixing, not once to the combined sorted collection. -/
theorem mixed_entries_count_per_source (env : Env) (p : Bool) (k : Int)
    (c : CacheStore) (feeds : List String) (hk : 0 < k) :
    (FeedMixer.mixed_entries env c (mkMixer feeds k p)).1.length
      = totalContribution env p k feeds c := by
  have e1 : (FeedMixer.mixed_entries env c (mkMixer feeds k p)).1
      = sortDesc (gather env p k feeds c).1 := rfl
  rw [e1, sortDesc_length, gather_length env p k hk]

/-- Witness for the amended claim C1 at a concrete input: two sources of two
entries each under keep-count 2 yield four entries. -/
theorem mixed_entries_count_per_source_witness :
    (0 : Int) < 2 ∧
      (FeedMixer.mixed_entries mixEnv [] (mkMixer ["a", "b"] 2 false)).1.length
        = totalContribution mixEnv false 2 ["a", "b"] [] :=
  ⟨by decide, mixed_entries_count_per_source mixEnv false 2 [] ["a", "b"] (by decide)⟩

/-- Claim C2: a source whose fetch fails (with a transport-kind or a
content-kind error) contributes zero entries — the mixed entries equal those
of the same configuration with that source removed — and appears in
`errors()` mapped to exactly that error; the failure is recorded as a value,
so nothing propagates out of `mixed_entries` (which is total by
construction).  Both kinds can occur in one call; the statement is
independent of the failure kind `e`. -/
theorem mixed_entries_failure_isolation (env : Env) (p : Bool) (k : Int)
    (c : CacheStore) (pre post : List String) (url : String) (e : FetchError)
    (hpre : url ∉ pre) (hpost : url ∉ post)
    (hf : (fetch env (gather env p k pre c).2.2 url).1 = Except.error e) :
    (FeedMixer.mixed_entries env c (mkMixer (pre ++ url :: post) k p)).1
      = (FeedMixer.mixed_entries env c (mkMixer (pre ++ post) k p)).1
    ∧ List.lookup url
        (FeedMixer.errors
          (FeedMixer.mixed_entries env c (mkMixer (pre ++ url :: post) k p)).2.1)
        = some e := by
  obtain ⟨h1, h2⟩ := gather_isolation env p k pre c post url e hpre hpost hf
  constructor
  · show sortDesc (gather env p k (pre ++ url :: post) c).1
        = sortDesc (gather env p k (pre ++ post) c).1
    rw [h1]
  · exact h2

/-- Witness for claim C2 at a concrete input: with a content-failing source
"perr" already in the list, the transport-failing source "terr" contributes
nothing and is mapped to its transport error with HTTP status 404. -/
theorem mixed_entries_failure_isolation_witness :
    (FeedMixer.mixed_entries mixEnv [] (mkMixer ["perr", "terr"] 2 false)).1
      = (FeedMixer.mixed_entries mixEnv [] (mkMixer ["perr"] 2 false)).1
    ∧ List.lookup "terr"
        (FeedMixer.errors
          (FeedMixer.mixed_entries mixEnv [] (mkMixer ["perr", "terr"] 2 false)).2.1)
        = some (FetchError.transport "fetch error" (some 404)) :=
  mixed_entries_failure_isolation mixEnv false 2 [] ["perr"] [] "terr"
    (FetchError.transport "fetch error" (some 404)) (by decide) (by decide) rfl

/-- Claim C3: duplicate source identifiers each independently contribute
their own entries, with no cross-source deduplication: a source list
`[A, B, A]` whose three occurrences each contribute 2 kept entries yields 6
entries in total. -/
theorem mixed_entries_duplicate_sources (env : Env) (p : Bool) (k : Int)
    (c : CacheStore) (A B : String) (hk : 0 < k)
    (h1 : sourceContribution env p k c A = 2)
    (h2 : sourceContribution env p k (fetch env c A).2 B = 2)
    (h3 : sourceContribution env p k (fetch env (fetch env c A).2 B).2 A = 2) :
    (FeedMixer.mixed_entries env c (mkMixer [A, B, A] k p)).1.length = 6 := by
  have e1 : (FeedMixer.mixed_entries env c (mkMixer [A, B, A] k p)).1
      = sortDesc (gather env p k [A, B, A] c).1 := rfl
  rw [e1, sortDesc_length, gather_length env p k hk]
  simp [totalContribution, h1, h2, h3]

/-- Witness for claim C3 at a concrete input: the list ["a", "b", "a"] with
keep-count 5 and two entries per feed yields 6 entries. -/
theorem mixed_entries_duplicate_sources_witness :
    (FeedMixer.mixed_entries mixEnv [] (mkMixer ["a", "b", "a"] 5 false)).1.length
      = 6 :=
  mixed_entries_duplicate_sources mixEnv false 5 [] "a" "b" (by decide) rfl rfl rfl

/-- Claim C4: the mixed-entries view is a permutation of the concatenated
per-source buckets, pairwise descending in the publication key (`keyOf` maps
a missing publication instant to 0, the oldest possible key, and instant `t`
to `t + 1`); entries lacking a publication instant only ever precede entries
that also lack one (they sink to the end); and the sort is stable: for every
key value, the entries holding it appear in their original concatenation
order. -/
theorem mixed_entries_sorted (env : Env) (c : CacheStore) (feeds : List String)
    (k : Int) (p : Bool) :
    List.Perm (FeedMixer.mixed_entries env c (mkMixer feeds k p)).1
        (gather env p k feeds c).1
    ∧ List.Pairwise (fun a b => keyOf b ≤ keyOf a)
        (FeedMixer.mixed_entries env c (mkMixer feeds k p)).1
    ∧ List.Pairwise (fun a b => a.published = none → b.published = none)
        (FeedMixer.mixed_entries env c (mkMixer feeds k p)).1
    ∧ ∀ t, (FeedMixer.mixed_entries env c (mkMixer feeds k p)).1.filter
            (fun e => keyOf e == t)
          = (gather env p k feeds c).1.filter (fun e => keyOf e == t) := by
  have e1 : (FeedMixer.mixed_entries env c (mkMixer feeds k p)).1
      = sortDesc (gather env p k feeds c).1 := rfl
  rw [e1]
  refine ⟨sortDesc_perm _, pairwise_sortDesc _, ?_, fun t => filter_sortDesc _ t⟩
  refine (pairwise_sortDesc (gather env p k feeds c).1).imp ?_
  intro a b hab hnone
  have ha : keyOf a = 0 := by simp [keyOf, hnone]
  have hb0 : keyOf b = 0 := by omega
  cases hb : b.published with
  | none => rfl
  | some t => rw [keyOf, hb] at hb0; simp at hb0

/-- Claim C5: writing the source list or the keep-count clears the memoized
result and the error map, and the following `mixed_entries` call recomputes
under the new configuration — even when the mixer held a memoized (possibly
stale) result. -/
theorem setters_invalidate (env : Env) (c : CacheStore) (m : FeedMixer)
    (fs : List String) (k : Int) :
    (FeedMixer.set_feeds m fs).memo = none
    ∧ (FeedMixer.set_feeds m fs).error_urls = []
    ∧ (FeedMixer.set_num_keep m k).memo = none
    ∧ (FeedMixer.set_num_keep m k).error_urls = []
    ∧ (FeedMixer.mixed_entries env c (FeedMixer.set_feeds m fs)).1
        = (computeMixed env c fs m.num_keep m.prefer_summary).1
    ∧ (FeedMixer.mixed_entries env c (FeedMixer.set_num_keep m k)).1
        = (computeMixed env c m.feeds k m.prefer_summary).1 :=
  ⟨rfl, rfl, rfl, rfl, rfl, rfl⟩

/-- Claim C6: with a present but expired cache record, a transport answer of
"not modified" is not a failure: `fetch` returns the content derived from
the existing cached payload, and re-stores the record via `replace` with the
response's refreshed validators and a refreshed expiry (TTL from the
response max-age, else the default; the stored record is fresh again). -/
theorem fetch_stale_not_modified (env : Env) (c : CacheStore) (url : String)
    (rec : CacheRecord) (vals : Validators) (maxAge : Option Nat)
    (feed : ParsedFeed)
    (hget : CacheStore.get c url = some (rec, true))
    (htr : env.transport url (some rec.validators)
        = CondResponse.notModified vals maxAge)
    (hp : parsePayload env rec.payload = Except.ok feed) :
    (fetch env c url).1 = Except.ok feed
    ∧ CacheStore.get (fetch env c url).2 url
        = some ({ payload := Payload.parsed feed, validators := vals,
                  ttl := maxAge.getD env.defaultTTL }, false) := by
  unfold fetch
  simp only [hget, htr, hp]
  constructor
  · first
    | rfl
    | trivial
  · simp [CacheStore.get, CacheStore.replace, List.lookup]

/-- Witness for claim C6 at a concrete input: the expired parsed record for
"a" answered "not modified" yields the cached feed and a fresh record with
the new etag and the response max-age. -/
theorem fetch_stale_not_modified_witness :
    (fetch mixEnv staleCache "a").1 = Except.ok feed2
    ∧ CacheStore.get (fetch mixEnv staleCache "a").2 "a"
        = some ({ payload := Payload.parsed feed2,
                  validators := { etag := some "e2" }, ttl := 60 }, false) :=
  fetch_stale_not_modified mixEnv staleCache "a"
    { payload := Payload.parsed feed2, validators := { etag := some "e1" },
      ttl := 0 }
    { etag := some "e2" } (some 60) feed2 rfl rfl rfl

/-- Claim C7, as stated, fails on the code: on a fresh cache hit whose
payload is raw transport content, the cache is not left unchanged — the
parsed form is re-stored (the unit test test_fresh_response asserts
`replace_data` is called once). -/
theorem fetch_fresh_raw_restores :
    ¬ ((fetch mixEnv freshRawCache "a").2 = freshRawCache) := by
  decide

/-- Claim C7 (amended): on a fresh (present, not expired) cache hit, an
already-parsed payload is returned directly with the cache left unchanged;
a raw payload is parsed and the parsed form is re-stored into the record via
`replace_data` (validators, TTL and freshness untouched). -/
theorem fetch_fresh_hit (env : Env) (c : CacheStore) (url : String)
    (rec : CacheRecord) (hget : CacheStore.get c url = some (rec, false)) :
    (∀ feed, rec.payload = Payload.parsed feed →
        fetch env c url = (Except.ok feed, c))
    ∧ (∀ body feed, rec.payload = Payload.raw body →
        env.parse body = Except.ok feed →
        fetch env c url
          = (Except.ok feed, CacheStore.replace_data c url (Payload.parsed feed))) := by
  constructor
  · intro feed hpl
    unfold fetch
    simp only [hget, hpl]
  · intro body feed hpl hp
    unfold fetch
    simp only [hget, hpl, hp]

/-- Witness for the amended claim C7 at a concrete input: the fresh raw
record for "a" is parsed and re-stored as the parsed feed. -/
theorem fetch_fresh_hit_witness :
    fetch mixEnv freshRawCache "a"
      = (Except.ok feed2,
         CacheStore.replace_data freshRawCache "a" (Payload.parsed feed2)) :=
  (fetch_fresh_hit mixEnv freshRawCache "a" { payload := Payload.raw "x" }
    rfl).2 "x" feed2 rfl rfl

/-- Claim C8: a keep-count of zero or a negative keep-count keeps everything:
the mixed-entries view is a permutation of every produced entry, with no
truncation anywhere. -/
theorem mixed_entries_keep_all (env : Env) (c : CacheStore)
    (feeds : List String) (k : Int) (p : Bool) (hk : k ≤ 0) :
    List.Perm (FeedMixer.mixed_entries env c (mkMixer feeds k p)).1
      (producedEntries env p feeds c) := by
  have e1 : (FeedMixer.mixed_entries env c (mkMixer feeds k p)).1
      = sortDesc (gather env p k feeds c).1 := rfl
  rw [e1, gather_eq_produced env p k hk]
  exact sortDesc_perm _

/-- Witness for claim C8 at a concrete input: keep-count -1 returns both
produced entries of the single source "a". -/
theorem mixed_entries_keep_all_witness :
    List.Perm (FeedMixer.mixed_entries mixEnv [] (mkMixer ["a"] (-1) false)).1
      (producedEntries mixEnv false ["a"] []) :=
  mixed_entries_keep_all mixEnv [] ["a"] (-1) false (by decide)

/-- Claim C9: the normalizer maps each feed entry to an output entry whose
author fields are: unchanged when the entry already had an author name;
the feed-level author name — and the feed-level URI when that is present —
when the entry had none and the feed declares an author; and unchanged when
neither the entry nor the feed has an author. -/
theorem normalize_author_backfill (p : Bool) (feed : ParsedFeed) :
    List.Forall₂ (fun e e2 =>
        (e2.authorName, e2.authorUri)
          = (match e.authorName, feed.feedAuthorName with
             | some n, _ => (some n, e.authorUri)
             | none, some n =>
                 (some n, match feed.feedAuthorUri with
                          | some u => some u
                          | none => e.authorUri)
             | none, none => (none, e.authorUri)))
      feed.entries (normalize p feed) := by
  unfold normalize
  rw [List.forall₂_map_right_iff, List.forall₂_same]
  intro e _
  unfold backfillAuthor
  cases han : e.authorName with
  | some n => simp [han]
  | none =>
      cases hfn : feed.feedAuthorName with
      | none => simp [han, hfn]
      | some n =>
          cases hfu : feed.feedAuthorUri with
          | none => simp [han, hfn, hfu]
          | some u => simp [han, hfn, hfu]

/-- Claim C10: every GET handled by the front end responds with status 200 —
also when every source failed; the headers consist of exactly the
`X-fm-errors` header (the URL-encoded JSON rendering of the error map, each
error string carrying the HTTP status when the error has one) when at least
one source failed, and of no header at all otherwise. -/
theorem on_get_response (A : AppEnv) (ftype : String) (f : List String)
    (n : Int) :
    (on_get A ftype f n).status = 200
    ∧ ((on_get A ftype f n).headers
        = (if (computeMixed A.env A.cache f n false).2.1.isEmpty then []
           else [("X-fm-errors",
                  A.urlQuote (A.jsonEncode
                    (((computeMixed A.env A.cache f n false).2.1).map
                      (fun pr => (pr.1, errStr pr.2)))))]))
    ∧ (¬ (List.lookup "X-fm-errors" (on_get A ftype f n).headers = none)
        ↔ ¬ ((computeMixed A.env A.cache f n false).2.1 = [])) := by
  refine ⟨rfl, rfl, ?_⟩
  have h2 : (on_get A ftype f n).headers
      = (if (computeMixed A.env A.cache f n false).2.1.isEmpty then []
         else [("X-fm-errors",
                A.urlQuote (A.jsonEncode
                  (((computeMixed A.env A.cache f n false).2.1).map
                    (fun pr => (pr.1, errStr pr.2)))))]) := rfl
  rw [h2]
  by_cases he : (computeMixed A.env A.cache f n false).2.1 = []
  · simp [he]
  · have hne : ¬ (computeMixed A.env A.cache f n false).2.1.isEmpty := by
      simpa [List.isEmpty_iff] using he
    simp [hne, he, List.lookup]

end FM
